import Mathlib

/-
A verification development for the pyrsa searchlight pipeline
(pyrsa/util/searchlight.py).

Conventions of the embedding:
  * a 3D numpy array is a `Mask`: its shape (a triple of naturals) together
    with a value function on coordinates;
  * voxel coordinates are triples of naturals (numpy indices are nonnegative
    here: every coordinate handled by the pipeline comes from np.nonzero or
    np.arange);
  * floating-point scalars (radius, threshold, mask values, data) are
    modelled as rationals; the float comparison `distance < radius` with
    `distance = sqrt(sqDist)` is embedded as `sqDist < radius^2`, which is
    exactly equivalent for `radius > 0`;
  * numpy's mean of an empty slice is NaN and `NaN >= t` is False; this is
    modelled by an `Option` mean, with the comparison false on `none`;
  * np.ravel_multi_index on an empty center array raises ValueError (an
    empty np.array has shape (0,), so its transpose supplies zero index
    arrays for the three dims); get_volume_searchlight therefore returns
    `Except`, erroring exactly when no center was retained.
-/

/-- A 3D numpy array: a shape and a value function on coordinates. -/
structure Mask where
  shape : ℕ × ℕ × ℕ
  val : ℕ × ℕ × ℕ → ℚ

/-- One axis of the box prefilter: `x = np.arange(n); x = x[abs(x - c) < radius]`. -/
def axisCandidates (n c : ℕ) (radius : ℚ) : List ℕ :=
  (List.range n).filter (fun i => decide (|(i : ℚ) - (c : ℚ)| < radius))

/-- Squared Euclidean distance between two voxel coordinates. -/
def sqDist (p q : ℕ × ℕ × ℕ) : ℚ :=
  ((p.1 : ℚ) - (q.1 : ℚ)) ^ 2 + ((p.2.1 : ℚ) - (q.2.1 : ℚ)) ^ 2
    + ((p.2.2 : ℚ) - (q.2.2 : ℚ)) ^ 2

/-- The grid of candidate points: `X, Y, Z = np.meshgrid(x, y, z)` followed by
raveling and stacking. meshgrid's default indexing is 'xy', so the raveled
order runs over y outermost, then x, then z innermost. -/
def gridPoints (xs ys zs : List ℕ) : List (ℕ × ℕ × ℕ) :=
  ys.flatMap (fun b => xs.flatMap (fun a => zs.map (fun c => (a, b, c))))

/-- `_get_searchlight_neighbors(mask, center, radius)`: per-axis open-interval
box prefilter, then the exact sphere test `distance < radius` (embedded as
`sqDist < radius^2`). Only `mask.shape` is read. -/
def _get_searchlight_neighbors (mask : Mask) (center : ℕ × ℕ × ℕ) (radius : ℚ) :
    List (ℕ × ℕ × ℕ) :=
  let xs := axisCandidates mask.shape.1 center.1 radius
  let ys := axisCandidates mask.shape.2.1 center.2.1 radius
  let zs := axisCandidates mask.shape.2.2 center.2.2 radius
  (gridPoints xs ys zs).filter (fun p => decide (sqDist p center < radius ^ 2))

/-- A coordinate is inside the bounds of a shape. -/
def inBounds (shape p : ℕ × ℕ × ℕ) : Prop :=
  p.1 < shape.1 ∧ p.2.1 < shape.2.1 ∧ p.2.2 < shape.2.2

instance (shape p : ℕ × ℕ × ℕ) : Decidable (inBounds shape p) := by
  unfold inBounds; infer_instance

/-- All coordinates of a shape in C order (x outermost, z innermost): the
scan order of `np.nonzero`. -/
def allCoords (shape : ℕ × ℕ × ℕ) : List (ℕ × ℕ × ℕ) :=
  (List.range shape.1).flatMap (fun a =>
    (List.range shape.2.1).flatMap (fun b =>
      (List.range shape.2.2).map (fun c => (a, b, c))))

/-- `list(zip(*np.nonzero(mask)))`: the in-bounds coordinates with nonzero
mask value, in C order. -/
def nonzeroCoords (mask : Mask) : List (ℕ × ℕ × ℕ) :=
  (allCoords mask.shape).filter (fun p => decide (mask.val p ≠ 0))

/-- `mask[neighbors].mean()`: numpy's mean of an empty slice is NaN, modelled
as `none`. -/
def sphereMean (mask : Mask) (nbs : List (ℕ × ℕ × ℕ)) : Option ℚ :=
  if nbs.isEmpty then none
  else some ((nbs.map mask.val).sum / (nbs.length : ℚ))

/-- The retention test `mask[neighbors].mean() >= threshold`; a NaN mean
compares false. -/
def retainQ (mask : Mask) (threshold : ℚ) (nbs : List (ℕ × ℕ × ℕ)) : Bool :=
  match sphereMean mask nbs with
  | none => false
  | some m => decide (threshold ≤ m)

/-- The retained centers of `get_volume_searchlight`, in candidate order. -/
def goodCenters (mask : Mask) (radius threshold : ℚ) : List (ℕ × ℕ × ℕ) :=
  (nonzeroCoords mask).filter
    (fun c => retainQ mask threshold (_get_searchlight_neighbors mask c radius))

/-- The retained neighborhoods, parallel to `goodCenters`. -/
def goodNeighbors (mask : Mask) (radius threshold : ℚ) :
    List (List (ℕ × ℕ × ℕ)) :=
  (goodCenters mask radius threshold).map
    (fun c => _get_searchlight_neighbors mask c radius)

/-- The ValueError message np.ravel_multi_index raises when the transposed
empty center array supplies zero index arrays for the three dims. -/
def ravelErrorMsg : String :=
  "ravel_multi_index: parameter multi_index must be a sequence of length 3"

/-- `np.ravel_multi_index` for one in-bounds coordinate under C order. -/
def ravelIndex (shape : ℕ × ℕ × ℕ) (p : ℕ × ℕ × ℕ) : ℕ :=
  (p.1 * shape.2.1 + p.2.1) * shape.2.2 + p.2.2

/-- `get_volume_searchlight(mask, radius, threshold)`. When no center is
retained, `good_centers` is the empty float array of shape (0,), whose
transpose supplies zero index arrays to `np.ravel_multi_index` against three
dims, raising ValueError; this is the `Except.error` branch. -/
def get_volume_searchlight (mask : Mask) (radius threshold : ℚ) :
    Except String (List ℕ × List (List ℕ)) :=
  let centers := goodCenters mask radius threshold
  if centers.isEmpty then
    Except.error ravelErrorMsg
  else
    Except.ok (centers.map (ravelIndex mask.shape),
      (goodNeighbors mask radius threshold).map
        (fun nbs => nbs.map (ravelIndex mask.shape)))

/-- Coverage ratio as the spec words it: (count of neighborhood voxels with
nonzero mask value) / (total neighborhood voxel count). Stated from the spec
for comparison against the code's mean-of-values test. -/
def coverageRatio (mask : Mask) (nbs : List (ℕ × ℕ × ℕ)) : ℚ :=
  ((nbs.filter (fun p => decide (mask.val p ≠ 0))).length : ℚ) /
    (nbs.length : ℚ)

/-- A mask that is 1 at one voxel and 0 elsewhere. -/
def indicatorMask (shape v : ℕ × ℕ × ℕ) : Mask :=
  ⟨shape, fun p => if p = v then 1 else 0⟩

/-- A 1x1x1 mask whose single value is 1/2: nonzero, so a candidate center,
but with mean below 1. -/
def maskHalf : Mask := ⟨(1, 1, 1), fun _ => 1 / 2⟩

/-- A mask that is 1 everywhere. -/
def onesMask (shape : ℕ × ℕ × ℕ) : Mask := ⟨shape, fun _ => 1⟩

/-- Python slice `l[a:b]` (clamped at the length, empty when `b <= a`). -/
def pySlice {α : Type} (l : List α) (a b : ℕ) : List α := (l.take b).drop a

/-- `np.split(l, pts)`: successive slices `l[0:p1], l[p1:p2], ..., l[pk:len]`. -/
def npSplitAux {α : Type} (l : List α) : ℕ → List ℕ → List (List α)
  | a, [] => [pySlice l a l.length]
  | a, p :: ps => pySlice l a p :: npSplitAux l p ps

def npSplit {α : Type} (l : List α) (pts : List ℕ) : List (List α) :=
  npSplitAux l 0 pts

/-- `np.linspace(0, n, 100, dtype=int)[1:-1]`: the 98 interior split points
`i * n / 99` for i = 1..98. dtype=int truncates; the values are nonnegative,
so truncation is the floor modelled exactly by natural division (float64
rounding could differ from the exact floor only by moving one split point by
one slot, which leaves every property proved here intact: the proofs only
use that the points are nondecreasing). -/
def splitPoints (n : ℕ) : List ℕ :=
  (((List.range 100).map (fun i => i * n / 99)).drop 1).dropLast

/-- `len(np.unique(events))`. -/
def nUniqueEvents (events : List ℕ) : ℕ := events.dedup.length

/-- `n_conds * (n_conds - 1) // 2`: the number of condition pairs. -/
def nPairsOf (events : List ℕ) : ℕ :=
  nUniqueEvents events * (nUniqueEvents events - 1) / 2

/-- The Dataset object built per center inside get_searchlight_RDMs:
`Dataset(data_raveled[:, nb], descriptors={'center': c},
obs_descriptors={'events': events}, channel_descriptors={'voxels': nb})`. -/
structure SLDataset where
  measurements : List (List ℚ)
  center : ℕ
  events : List ℕ
  voxels : List ℕ

/-- The localized dataset for one center: observation rows unchanged, columns
restricted to the center's neighbor channel indices. -/
def localizedDataset (data : List (List ℚ)) (events : List ℕ) (c : ℕ)
    (nb : List ℕ) : SLDataset :=
  { measurements := data.map (fun row => nb.map (fun j => row.getD j 0)),
    center := c, events := events, voxels := nb }

/-- Modelled from the spec: pyrsa.rdm.calc.calc_rdm is not under src/; the
spec fixes its contract — each per-center dataset yields one dissimilarity
vector of length C(n_conditions, 2), rows concatenated in dataset order. The
function itself is abstracted as a parameter satisfying this predicate. -/
def CalcRdmSpec (events : List ℕ) (f : SLDataset → List ℚ) : Prop :=
  ∀ ds : SLDataset, (f ds).length = nPairsOf events

/-- `get_searchlight_RDMs(data_raveled, centers_raveled, neighbors_raveled,
events)`: chunk the center indices with np.split/np.linspace, build one
localized dataset per center of the chunk, and write the per-center
dissimilarity rows into the preallocated zero matrix at the chunk's indices
(`RDM[chunk, :] = RDM_corr.dissimilarities`, modelled as one row-set per
center in chunk order). -/
def get_searchlight_RDMs (calcRdm : SLDataset → List ℚ)
    (data : List (List ℚ)) (events : List ℕ) (centers : List ℕ)
    (neighbors : List (List ℕ)) : List (List ℚ) :=
  let n := centers.length
  let chunks := npSplit (List.range n) (splitPoints n)
  chunks.foldl
    (fun RDM chunk =>
      chunk.foldl
        (fun R c =>
          R.set c (calcRdm (localizedDataset data events c (neighbors.getD c []))))
        RDM)
    (List.replicate n (List.replicate (nPairsOf events) 0))

/-- `evaluate_models_searchlight(sl_RDM, models, eval_function, ...)`:
joblib.Parallel dispatches `eval_function(models, x)` over the RDM sequence
and collects results in dispatch order, modelled as List.map. -/
def evaluate_models_searchlight {μ ρ σ : Type} (sl_RDM : List ρ) (models : μ)
    (eval_function : μ → ρ → σ) : List σ :=
  sl_RDM.map (fun x => eval_function models x)

/-- The concrete mask for the value-independence scenario: shape 1x1x3 with
values 1, 1, 0 along the z axis. -/
def maskC10 : Mask := ⟨(1, 1, 3), fun p => if p.2.2 = 2 then 0 else 1⟩

lemma mem_axisCandidates {n c : ℕ} {r : ℚ} {i : ℕ} :
    i ∈ axisCandidates n c r ↔ i < n ∧ |(i : ℚ) - (c : ℚ)| < r := by
  simp [axisCandidates, List.mem_filter, List.mem_range]

lemma mem_gridPoints {xs ys zs : List ℕ} {p : ℕ × ℕ × ℕ} :
    p ∈ gridPoints xs ys zs ↔ p.1 ∈ xs ∧ p.2.1 ∈ ys ∧ p.2.2 ∈ zs := by
  obtain ⟨a, b, c⟩ := p
  simp [gridPoints, List.mem_flatMap, List.mem_map]
  constructor
  · rintro ⟨b0, hb, a0, ha, c0, hc, h1, h2, h3⟩
    subst h1; subst h2; subst h3
    exact ⟨ha, hb, hc⟩
  · rintro ⟨ha, hb, hc⟩
    exact ⟨b, hb, a, ha, c, hc, rfl, rfl, rfl⟩

lemma abs_lt_of_sq_lt {d r : ℚ} (h : d ^ 2 < r ^ 2) (hr : 0 ≤ r) : |d| < r := by
  by_contra hcon
  push_neg at hcon
  have h1 : r ^ 2 ≤ |d| ^ 2 := by
    apply pow_le_pow_left₀ hr hcon
  rw [sq_abs] at h1
  linarith

/-- Characterisation of the neighborhood: a point is returned iff it is
in bounds and its squared distance to the center is below `radius^2`.
Needs `0 < radius` for completeness of the box prefilter. -/
lemma mem_neighbors_iff (mask : Mask) (center p : ℕ × ℕ × ℕ) {r : ℚ}
    (hr : 0 < r) :
    p ∈ _get_searchlight_neighbors mask center r ↔
      inBounds mask.shape p ∧ sqDist p center < r ^ 2 := by
  unfold _get_searchlight_neighbors
  simp only [List.mem_filter, mem_gridPoints, mem_axisCandidates,
    decide_eq_true_iff]
  constructor
  · rintro ⟨⟨⟨hx, _⟩, ⟨hy, _⟩, ⟨hz, _⟩⟩, hd⟩
    exact ⟨⟨hx, hy, hz⟩, hd⟩
  · rintro ⟨⟨hx, hy, hz⟩, hd⟩
    have hsq : ∀ d e f : ℚ, 0 ≤ e → 0 ≤ f → d + e + f < r ^ 2 → d < r ^ 2 := by
      intro d e f he hf hlt; linarith
    refine ⟨⟨⟨hx, ?_⟩, ⟨hy, ?_⟩, ⟨hz, ?_⟩⟩, hd⟩
    · refine abs_lt_of_sq_lt ?_ hr.le
      have := sq_nonneg ((p.2.1 : ℚ) - (center.2.1 : ℚ))
      have := sq_nonneg ((p.2.2 : ℚ) - (center.2.2 : ℚ))
      unfold sqDist at hd
      linarith
    · refine abs_lt_of_sq_lt ?_ hr.le
      have := sq_nonneg ((p.1 : ℚ) - (center.1 : ℚ))
      have := sq_nonneg ((p.2.2 : ℚ) - (center.2.2 : ℚ))
      unfold sqDist at hd
      linarith
    · refine abs_lt_of_sq_lt ?_ hr.le
      have := sq_nonneg ((p.1 : ℚ) - (center.1 : ℚ))
      have := sq_nonneg ((p.2.1 : ℚ) - (center.2.1 : ℚ))
      unfold sqDist at hd
      linarith

/-- C1: for every mask shape, center and radius > 0, the neighborhood locator
returns exactly the in-bounds coordinates whose Euclidean distance to the
center is strictly below the radius (stated with the equivalent squared
comparison `sqDist p center < radius^2`): soundness and completeness of the
box-prefilter-plus-sphere-test pipeline. -/
theorem C1_neighbors_sound_complete (mask : Mask) (center p : ℕ × ℕ × ℕ)
    (r : ℚ) (hr : 0 < r) :
    p ∈ _get_searchlight_neighbors mask center r ↔
      inBounds mask.shape p ∧ sqDist p center < r ^ 2 :=
  mem_neighbors_iff mask center p hr

theorem C1_witness :
    (0 : ℚ) < 3 / 2 ∧
      ((1, 1, 0) ∈
          _get_searchlight_neighbors ⟨(3, 3, 3), fun _ => 1⟩ (1, 1, 1) (3 / 2) ↔
        inBounds (3, 3, 3) (1, 1, 0) ∧ sqDist (1, 1, 0) (1, 1, 1) < (3 / 2) ^ 2) :=
  ⟨by norm_num,
    C1_neighbors_sound_complete ⟨(3, 3, 3), fun _ => 1⟩ (1, 1, 1) (1, 1, 0)
      (3 / 2) (by norm_num)⟩

lemma mem_allCoords {shape p : ℕ × ℕ × ℕ} :
    p ∈ allCoords shape ↔ inBounds shape p := by
  obtain ⟨a, b, c⟩ := p
  simp [allCoords, List.mem_flatMap, List.mem_map, List.mem_range, inBounds]
  constructor
  · rintro ⟨a0, ha, b0, hb, c0, hc, h1, h2, h3⟩
    subst h1; subst h2; subst h3
    exact ⟨ha, hb, hc⟩
  · rintro ⟨ha, hb, hc⟩
    exact ⟨a, ha, b, hb, c, hc, rfl, rfl, rfl⟩

lemma mem_nonzeroCoords {mask : Mask} {p : ℕ × ℕ × ℕ} :
    p ∈ nonzeroCoords mask ↔ inBounds mask.shape p ∧ mask.val p ≠ 0 := by
  simp [nonzeroCoords, List.mem_filter, mem_allCoords]

lemma center_mem_neighbors (mask : Mask) (center : ℕ × ℕ × ℕ) {r : ℚ}
    (hr : 0 < r) (hb : inBounds mask.shape center) :
    center ∈ _get_searchlight_neighbors mask center r := by
  rw [mem_neighbors_iff mask center center hr]
  refine ⟨hb, ?_⟩
  unfold sqDist
  simp
  positivity

/-- C9: for every mask, in-bounds center and radius > 0, the returned
neighborhood contains the center itself, hence is nonempty, so the coverage
mean in `get_volume_searchlight` is a mean over a nonempty list (never the
NaN branch). -/
theorem C9_center_in_own_neighborhood (mask : Mask) (center : ℕ × ℕ × ℕ)
    (r : ℚ) (hr : 0 < r) (hb : inBounds mask.shape center) :
    center ∈ _get_searchlight_neighbors mask center r ∧
      _get_searchlight_neighbors mask center r ≠ [] ∧
      sphereMean mask (_get_searchlight_neighbors mask center r) =
        some (((_get_searchlight_neighbors mask center r).map mask.val).sum /
          ((_get_searchlight_neighbors mask center r).length : ℚ)) := by
  have hmem := center_mem_neighbors mask center hr hb
  have hne : _get_searchlight_neighbors mask center r ≠ [] :=
    List.ne_nil_of_mem hmem
  refine ⟨hmem, hne, ?_⟩
  unfold sphereMean
  rw [if_neg (by simpa [List.isEmpty_iff] using hne)]

theorem C9_witness :
    (1, 0, 2) ∈
        _get_searchlight_neighbors ⟨(2, 1, 3), fun _ => 1⟩ (1, 0, 2) 2 ∧
      _get_searchlight_neighbors ⟨(2, 1, 3), fun _ => 1⟩ (1, 0, 2) 2 ≠ [] ∧
      sphereMean ⟨(2, 1, 3), fun _ => 1⟩
          (_get_searchlight_neighbors ⟨(2, 1, 3), fun _ => 1⟩ (1, 0, 2) 2) =
        some (((_get_searchlight_neighbors ⟨(2, 1, 3), fun _ => 1⟩
            (1, 0, 2) 2).map (fun _ => (1 : ℚ))).sum /
          ((_get_searchlight_neighbors ⟨(2, 1, 3), fun _ => 1⟩
            (1, 0, 2) 2).length : ℚ)) :=
  C9_center_in_own_neighborhood ⟨(2, 1, 3), fun _ => 1⟩ (1, 0, 2) 2
    (by norm_num) (by decide)

lemma binary_sum_eq_count (mask : Mask) (nbs : List (ℕ × ℕ × ℕ))
    (h : ∀ p ∈ nbs, mask.val p = 0 ∨ mask.val p = 1) :
    (nbs.map mask.val).sum =
      ((nbs.filter (fun p => decide (mask.val p ≠ 0))).length : ℚ) := by
  induction nbs with
  | nil => simp
  | cons a l ih =>
    have ha := h a (by simp)
    have hl := ih (fun p hp => h p (by simp [hp]))
    rcases ha with ha | ha
    · simp [List.filter_cons, ha, hl]
    · simp [List.filter_cons, ha, hl]
      ring

/-- C2 (amended): over masks whose values are 0 or 1 — the documented input
domain, where the mean of mask values coincides with the nonzero count — a
candidate center (in bounds, nonzero) is retained iff its coverage ratio is
at least the threshold. -/
theorem C2_retained_iff_coverage (mask : Mask) (r t : ℚ) (center : ℕ × ℕ × ℕ)
    (hbin : ∀ p, mask.val p = 0 ∨ mask.val p = 1) (hr : 0 < r)
    (hb : inBounds mask.shape center) (hc : mask.val center ≠ 0) :
    center ∈ goodCenters mask r t ↔
      t ≤ coverageRatio mask (_get_searchlight_neighbors mask center r) := by
  have hnbs := center_mem_neighbors mask center hr hb
  have hne : _get_searchlight_neighbors mask center r ≠ [] :=
    List.ne_nil_of_mem hnbs
  unfold goodCenters
  rw [List.mem_filter]
  have hmem : center ∈ nonzeroCoords mask := mem_nonzeroCoords.mpr ⟨hb, hc⟩
  simp only [hmem, true_and]
  unfold retainQ sphereMean
  rw [if_neg (by simpa [List.isEmpty_iff] using hne)]
  simp only [decide_eq_true_eq]
  unfold coverageRatio
  rw [binary_sum_eq_count mask _ (fun p _ => hbin p)]

theorem C2_witness :
    (0, 0, 0) ∈ goodCenters ⟨(1, 1, 1), fun _ => 1⟩ 1 1 ↔
      (1 : ℚ) ≤ coverageRatio ⟨(1, 1, 1), fun _ => 1⟩
        (_get_searchlight_neighbors ⟨(1, 1, 1), fun _ => 1⟩ (0, 0, 0) 1) :=
  C2_retained_iff_coverage ⟨(1, 1, 1), fun _ => 1⟩ 1 1 (0, 0, 0)
    (fun _ => Or.inr rfl) (by norm_num) (by decide) (by norm_num)

lemma nodup_axisCandidates (n c : ℕ) (r : ℚ) : (axisCandidates n c r).Nodup :=
  (List.nodup_range n).filter _

lemma gridPoints_eq_product (xs ys zs : List ℕ) :
    gridPoints xs ys zs =
      (ys ×ˢ (xs ×ˢ zs)).map (fun t => (t.2.1, t.1, t.2.2)) := by
  simp [gridPoints, SProd.sprod, List.product, List.map_flatMap, List.map_map,
    Function.comp_def]

lemma nodup_gridPoints {xs ys zs : List ℕ} (hx : xs.Nodup) (hy : ys.Nodup)
    (hz : zs.Nodup) : (gridPoints xs ys zs).Nodup := by
  rw [gridPoints_eq_product]
  refine List.Nodup.map ?_ (hy.product (hx.product hz))
  rintro ⟨b1, a1, c1⟩ ⟨b2, a2, c2⟩ h
  simp only [Prod.mk.injEq] at h
  obtain ⟨h1, h2, h3⟩ := h
  simp [h1, h2, h3]

lemma nodup_neighbors (mask : Mask) (center : ℕ × ℕ × ℕ) (r : ℚ) :
    (_get_searchlight_neighbors mask center r).Nodup := by
  unfold _get_searchlight_neighbors
  exact (nodup_gridPoints (nodup_axisCandidates _ _ _)
    (nodup_axisCandidates _ _ _) (nodup_axisCandidates _ _ _)).filter _

lemma eq_singleton_of_nodup_mem {α : Type} {l : List α} {v : α}
    (hnd : l.Nodup) (hv : v ∈ l) (hall : ∀ x ∈ l, x = v) : l = [v] := by
  cases l with
  | nil => cases hv
  | cons a t =>
    have ha : a = v := hall a (List.mem_cons_self a t)
    subst ha
    have hnotmem := (List.nodup_cons.mp hnd).1
    cases t with
    | nil => rfl
    | cons b t2 =>
      exfalso
      have hb : b = a := hall b (by simp)
      exact hnotmem (by simp [← hb])

lemma one_le_sq_of_ne {a b : ℕ} (h : a ≠ b) :
    (1 : ℚ) ≤ ((a : ℚ) - (b : ℚ)) ^ 2 := by
  have hz : ((a : ℤ) - (b : ℤ)) ≠ 0 := sub_ne_zero.mpr (by exact_mod_cast h)
  have h2 : (1 : ℤ) ≤ ((a : ℤ) - (b : ℤ)) ^ 2 := by
    rcases hz.lt_or_lt with hlt | hlt
    · nlinarith
    · nlinarith
  exact_mod_cast h2

lemma eq_of_sqDist_lt_one {p q : ℕ × ℕ × ℕ} (h : sqDist p q < 1) : p = q := by
  unfold sqDist at h
  have s1 := sq_nonneg ((p.1 : ℚ) - (q.1 : ℚ))
  have s2 := sq_nonneg ((p.2.1 : ℚ) - (q.2.1 : ℚ))
  have s3 := sq_nonneg ((p.2.2 : ℚ) - (q.2.2 : ℚ))
  have h1 : p.1 = q.1 := by
    by_contra hne; have := one_le_sq_of_ne hne; linarith
  have h2 : p.2.1 = q.2.1 := by
    by_contra hne; have := one_le_sq_of_ne hne; linarith
  have h3 : p.2.2 = q.2.2 := by
    by_contra hne; have := one_le_sq_of_ne hne; linarith
  obtain ⟨pa, pb, pc⟩ := p
  obtain ⟨qa, qb, qc⟩ := q
  simp_all

/-- With radius 1 the neighborhood of an in-bounds center is exactly the
center: the only integer point at distance below 1 is the center itself. -/
lemma neighbors_radius_one (mask : Mask) (v : ℕ × ℕ × ℕ)
    (hb : inBounds mask.shape v) :
    _get_searchlight_neighbors mask v 1 = [v] := by
  refine eq_singleton_of_nodup_mem (nodup_neighbors mask v 1)
    (center_mem_neighbors mask v (by norm_num) hb) ?_
  intro x hx
  have hch := (mem_neighbors_iff mask v x (by norm_num)).mp hx
  exact eq_of_sqDist_lt_one (by simpa using hch.2)

/-- C2 counterexample: a 1x1x1 mask with value 1/2. Its single voxel is a
nonzero candidate with coverage ratio 1 (at or above threshold 1), yet the
code rejects it because the mean of mask values is 1/2 < 1. -/
theorem C2_counterexample :
    coverageRatio maskHalf (_get_searchlight_neighbors maskHalf (0, 0, 0) 1)
        = 1 ∧
      ¬(0, 0, 0) ∈ goodCenters maskHalf 1 1 := by
  have hb : inBounds maskHalf.shape (0, 0, 0) := by
    simp [maskHalf, inBounds]
  have hnb : _get_searchlight_neighbors maskHalf (0, 0, 0) 1 = [(0, 0, 0)] :=
    neighbors_radius_one maskHalf (0, 0, 0) hb
  constructor
  · rw [hnb]
    norm_num [coverageRatio, maskHalf]
  · intro hmem
    unfold goodCenters at hmem
    have h2 := (List.mem_filter.mp hmem).2
    rw [hnb] at h2
    norm_num [retainQ, sphereMean, maskHalf] at h2

lemma sum_map_one (l : List (ℕ × ℕ × ℕ)) :
    (l.map (fun _ => (1 : ℚ))).sum = (l.length : ℚ) := by
  induction l with
  | nil => simp
  | cons a t ih => simp [ih]; ring

lemma retainQ_onesMask (shape : ℕ × ℕ × ℕ) (t : ℚ) (ht : t ≤ 1)
    (nbs : List (ℕ × ℕ × ℕ)) (hne : nbs ≠ []) :
    retainQ (onesMask shape) t nbs = true := by
  unfold retainQ sphereMean
  rw [if_neg (by simpa [List.isEmpty_iff] using hne)]
  simp only [decide_eq_true_eq]
  have hlen : (nbs.length : ℚ) ≠ 0 := by
    have : nbs.length ≠ 0 := by simpa [List.length_eq_zero] using hne
    exact_mod_cast this
  show t ≤ (nbs.map (onesMask shape).val).sum / (nbs.length : ℚ)
  have hval : (onesMask shape).val = fun _ => (1 : ℚ) := rfl
  rw [hval, sum_map_one, div_self hlen]
  exact ht

/-- On an all-ones mask every candidate neighborhood is entirely inside the
mask, so every voxel is retained as soon as the threshold is at most 1:
out-of-bounds positions are clipped away before the coverage mean, never
counted against it. -/
lemma goodCenters_onesMask (shape : ℕ × ℕ × ℕ) (r t : ℚ) (hr : 0 < r)
    (ht : t ≤ 1) : goodCenters (onesMask shape) r t = allCoords shape := by
  unfold goodCenters
  have hnz : nonzeroCoords (onesMask shape) = allCoords shape := by
    unfold nonzeroCoords
    simp [onesMask]
  rw [hnz]
  apply List.filter_eq_self.mpr
  intro c hc
  exact retainQ_onesMask shape t ht _
    (List.ne_nil_of_mem
      (center_mem_neighbors (onesMask shape) c hr (mem_allCoords.mp hc)))

/-- C4 counterexample: on the 5x5x5 all-ones cube with radius 1.5 and
threshold 1.0 the corner voxel (0,0,0) IS retained, contradicting the claim
that corner voxels are rejected at threshold 1.0: the coverage denominator is
the clipped (in-bounds) neighborhood size, not the full 19-voxel sphere. -/
theorem C4_counterexample :
    (0, 0, 0) ∈ goodCenters (onesMask (5, 5, 5)) (3 / 2) 1 := by
  rw [goodCenters_onesMask (5, 5, 5) (3 / 2) 1 (by norm_num) le_rfl]
  exact mem_allCoords.mpr (by decide)

/-- C4 (amended): on the 5x5x5 all-ones cube with radius 1.5, every voxel —
interior and corner alike — is retained at threshold 1.0, and likewise at
threshold 0.5: neighborhoods are clipped to the array bounds, so every
coverage ratio is exactly 1. -/
theorem C4_all_voxels_retained :
    goodCenters (onesMask (5, 5, 5)) (3 / 2) 1 = allCoords (5, 5, 5) ∧
      goodCenters (onesMask (5, 5, 5)) (3 / 2) (1 / 2) = allCoords (5, 5, 5) :=
  ⟨goodCenters_onesMask _ _ _ (by norm_num) le_rfl,
    goodCenters_onesMask _ _ _ (by norm_num) (by norm_num)⟩

lemma nodup_allCoords (shape : ℕ × ℕ × ℕ) : (allCoords shape).Nodup := by
  have heq : allCoords shape =
      (List.range shape.1) ×ˢ ((List.range shape.2.1) ×ˢ
        (List.range shape.2.2)) := by
    simp [allCoords, SProd.sprod, List.product, List.map_flatMap,
      List.map_map, Function.comp_def]
  rw [heq]
  exact (List.nodup_range _).product
    ((List.nodup_range _).product (List.nodup_range _))

lemma nonzeroCoords_indicator (shape v : ℕ × ℕ × ℕ) (hb : inBounds shape v) :
    nonzeroCoords (indicatorMask shape v) = [v] := by
  refine eq_singleton_of_nodup_mem
    ((nodup_allCoords shape).filter _)
    (mem_nonzeroCoords.mpr ⟨hb, by simp [indicatorMask]⟩) ?_
  intro x hx
  have hne := (mem_nonzeroCoords.mp hx).2
  by_contra hxv
  simp [indicatorMask, hxv] at hne

/-- C8: a mask with a single nonzero voxel, radius 1, threshold 1: exactly
one center is returned (the voxel's raveled index), its neighborhood is the
singleton center, and its coverage ratio is 1. -/
theorem C8_single_voxel (shape v : ℕ × ℕ × ℕ) (hb : inBounds shape v) :
    get_volume_searchlight (indicatorMask shape v) 1 1 =
        Except.ok ([ravelIndex shape v], [[ravelIndex shape v]]) ∧
      _get_searchlight_neighbors (indicatorMask shape v) v 1 = [v] ∧
      coverageRatio (indicatorMask shape v) [v] = 1 := by
  have hnb : _get_searchlight_neighbors (indicatorMask shape v) v 1 = [v] :=
    neighbors_radius_one (indicatorMask shape v) v hb
  have hretain : retainQ (indicatorMask shape v) 1 [v] = true := by
    simp [retainQ, sphereMean, indicatorMask]
  have hgood : goodCenters (indicatorMask shape v) 1 1 = [v] := by
    unfold goodCenters
    rw [nonzeroCoords_indicator shape v hb]
    simp [List.filter_cons, hnb, hretain]
  refine ⟨?_, hnb, by simp [coverageRatio, indicatorMask]⟩
  unfold get_volume_searchlight goodNeighbors
  rw [hgood]
  have hshape : (indicatorMask shape v).shape = shape := rfl
  simp [hnb, hshape]

theorem C8_witness :
    get_volume_searchlight (indicatorMask (3, 3, 3) (1, 1, 1)) 1 1 =
        Except.ok ([ravelIndex (3, 3, 3) (1, 1, 1)],
          [[ravelIndex (3, 3, 3) (1, 1, 1)]]) ∧
      _get_searchlight_neighbors (indicatorMask (3, 3, 3) (1, 1, 1))
          (1, 1, 1) 1 = [(1, 1, 1)] ∧
      coverageRatio (indicatorMask (3, 3, 3) (1, 1, 1)) [(1, 1, 1)] = 1 :=
  C8_single_voxel (3, 3, 3) (1, 1, 1) (by decide)

lemma pySlice_append_drop {α : Type} (l : List α) {a p : ℕ} (h : a ≤ p) :
    pySlice l a p ++ l.drop p = l.drop a := by
  have h1 : (l.drop a).take (p - a) = pySlice l a p := by
    rw [List.take_drop, pySlice]
    congr 2
    omega
  have h2 := List.drop_take_append_drop l a (p - a)
  rw [h1, show a + (p - a) = p by omega] at h2
  exact h2

lemma flatten_npSplitAux {α : Type} (l : List α) (pts : List ℕ) :
    ∀ a, List.Chain (· ≤ ·) a pts →
      (npSplitAux l a pts).flatten = l.drop a := by
  induction pts with
  | nil =>
    intro a _
    simp [npSplitAux, pySlice]
  | cons p ps ih =>
    intro a hchain
    obtain ⟨hap, hch⟩ := List.chain_cons.mp hchain
    simp only [npSplitAux, List.flatten_cons, ih p hch]
    exact pySlice_append_drop l hap

lemma splitPoints_pairwise (n : ℕ) : (splitPoints n).Pairwise (· ≤ ·) := by
  have h1 : ((List.range 100).map (fun i => i * n / 99)).Pairwise (· ≤ ·) :=
    List.Pairwise.map _
      (fun a b hab =>
        Nat.div_le_div_right (Nat.mul_le_mul_right n (Nat.le_of_lt hab)))
      (List.pairwise_lt_range 100)
  exact h1.sublist
    (List.Sublist.trans (List.dropLast_sublist _) (List.drop_sublist _ _))

lemma chain_zero_splitPoints (n : ℕ) :
    List.Chain (· ≤ ·) 0 (splitPoints n) := by
  rw [List.chain_iff_pairwise]
  exact List.pairwise_cons.mpr ⟨fun b _ => Nat.zero_le b, splitPoints_pairwise n⟩

/-- The np.split chunking of the center indices covers `range n` exactly, in
order: the linspace split points are nondecreasing, so the slices
concatenate back to the full index list. -/
lemma npSplit_flatten (n : ℕ) :
    (npSplit (List.range n) (splitPoints n)).flatten = List.range n := by
  have h := flatten_npSplitAux (List.range n) (splitPoints n) 0
    (chain_zero_splitPoints n)
  simpa [npSplit] using h

lemma foldl_chunks {α β : Type} (g : β → α → β) (chunks : List (List α))
    (init : β) :
    chunks.foldl (fun acc ch => ch.foldl g acc) init =
      chunks.flatten.foldl g init := by
  induction chunks generalizing init with
  | nil => rfl
  | cons ch t ih => simp [List.flatten_cons, List.foldl_append, ih]

lemma foldl_set_length (f : ℕ → List ℚ) (is : List ℕ) (m : List (List ℚ)) :
    (is.foldl (fun R c => R.set c (f c)) m).length = m.length := by
  induction is generalizing m with
  | nil => rfl
  | cons c t ih => rw [List.foldl_cons, ih, List.length_set]

lemma foldl_set_getElem? (f : ℕ → List ℚ) (is : List ℕ) (m : List (List ℚ))
    (i : ℕ) :
    (is.foldl (fun R c => R.set c (f c)) m)[i]? =
      if i ∈ is ∧ i < m.length then some (f i) else m[i]? := by
  induction is generalizing m with
  | nil => simp
  | cons c t ih =>
    rw [List.foldl_cons, ih, List.length_set]
    by_cases hit : i ∈ t ∧ i < m.length
    · rw [if_pos hit, if_pos ⟨List.mem_cons_of_mem c hit.1, hit.2⟩]
    · rw [if_neg hit, List.getElem?_set]
      by_cases hic : c = i
      · subst hic
        by_cases hlt : c < m.length
        · rw [if_pos rfl, if_pos hlt,
            if_pos ⟨List.mem_cons_self c t, hlt⟩]
        · rw [if_pos rfl, if_neg hlt,
            if_neg (fun hcon => hlt hcon.2),
            List.getElem?_eq_none (Nat.le_of_not_lt hlt)]
      · rw [if_neg hic]
        have : ¬(i ∈ c :: t ∧ i < m.length) := by
          intro hcon
          rcases List.mem_cons.mp hcon.1 with h | h
          · exact hic h.symm
          · exact hit ⟨h, hcon.2⟩
        rw [if_neg this]

lemma foldl_set_mem (f : ℕ → List ℚ) (is : List ℕ) (m : List (List ℚ)) :
    ∀ row ∈ is.foldl (fun R c => R.set c (f c)) m,
      (∃ c ∈ is, row = f c) ∨ row ∈ m := by
  induction is generalizing m with
  | nil => intro row h; exact Or.inr h
  | cons c t ih =>
    intro row h
    rw [List.foldl_cons] at h
    rcases ih (m.set c (f c)) row h with ⟨c2, hc2, hrow⟩ | h1
    · exact Or.inl ⟨c2, List.mem_cons_of_mem c hc2, hrow⟩
    · rcases List.mem_or_eq_of_mem_set h1 with h2 | h2
      · exact Or.inr h2
      · exact Or.inl ⟨c, List.mem_cons_self c t, h2⟩

lemma get_searchlight_RDMs_length (calcRdm : SLDataset → List ℚ)
    (data : List (List ℚ)) (events : List ℕ) (centers : List ℕ)
    (neighbors : List (List ℕ)) :
    (get_searchlight_RDMs calcRdm data events centers neighbors).length =
      centers.length := by
  unfold get_searchlight_RDMs
  rw [foldl_chunks, foldl_set_length, List.length_replicate]

lemma get_searchlight_RDMs_row (calcRdm : SLDataset → List ℚ)
    (data : List (List ℚ)) (events : List ℕ) (centers : List ℕ)
    (neighbors : List (List ℕ)) (i : ℕ) (hi : i < centers.length) :
    (get_searchlight_RDMs calcRdm data events centers neighbors)[i]? =
      some (calcRdm (localizedDataset data events i (neighbors.getD i []))) := by
  unfold get_searchlight_RDMs
  rw [foldl_chunks, npSplit_flatten, foldl_set_getElem?]
  rw [if_pos ⟨List.mem_range.mpr hi, by simpa using hi⟩]

lemma get_searchlight_RDMs_row_length (calcRdm : SLDataset → List ℚ)
    (data : List (List ℚ)) (events : List ℕ) (centers : List ℕ)
    (neighbors : List (List ℕ)) (hcalc : CalcRdmSpec events calcRdm) :
    ∀ row ∈ get_searchlight_RDMs calcRdm data events centers neighbors,
      row.length = nPairsOf events := by
  intro row hrow
  unfold get_searchlight_RDMs at hrow
  rw [foldl_chunks, npSplit_flatten] at hrow
  rcases foldl_set_mem _ _ _ row hrow with ⟨c, _, hr⟩ | hmem
  · rw [hr]; exact hcalc _
  · rw [List.eq_of_mem_replicate hmem]
    exact List.length_replicate ..

lemma gvs_ok_lengths (mask : Mask) (r t : ℚ) (centers : List ℕ)
    (neighbors : List (List ℕ))
    (h : get_volume_searchlight mask r t = Except.ok (centers, neighbors)) :
    centers.length = neighbors.length := by
  unfold get_volume_searchlight at h
  by_cases he : (goodCenters mask r t).isEmpty
  · rw [if_pos he] at h
    exact absurd h (by simp)
  · rw [if_neg he] at h
    simp only [Except.ok.injEq, Prod.mk.injEq] at h
    obtain ⟨hc, hn⟩ := h
    rw [← hc, ← hn]
    simp [goodNeighbors]

/-- C3: when the generator succeeds, the RDM matrix produced from its aligned
outputs has one row per center (row count = center count = neighbor-set
count), row i is the dissimilarity vector computed from the localized
dataset of centers[i] (chunked processing covers every index exactly once,
in input order), and every row has length C(n_conditions, 2). -/
theorem C3_rdm_matrix_shape (mask : Mask) (r t : ℚ) (centers : List ℕ)
    (neighbors : List (List ℕ)) (calcRdm : SLDataset → List ℚ)
    (data : List (List ℚ)) (events : List ℕ)
    (hgen : get_volume_searchlight mask r t = Except.ok (centers, neighbors))
    (hcalc : CalcRdmSpec events calcRdm) :
    (get_searchlight_RDMs calcRdm data events centers neighbors).length =
        centers.length ∧
      centers.length = neighbors.length ∧
      (∀ i, i < centers.length →
        (get_searchlight_RDMs calcRdm data events centers neighbors)[i]? =
          some (calcRdm (localizedDataset data events i (neighbors.getD i [])))) ∧
      ∀ row ∈ get_searchlight_RDMs calcRdm data events centers neighbors,
        row.length = nPairsOf events :=
  ⟨get_searchlight_RDMs_length calcRdm data events centers neighbors,
    gvs_ok_lengths mask r t centers neighbors hgen,
    fun i hi => get_searchlight_RDMs_row calcRdm data events centers neighbors i hi,
    get_searchlight_RDMs_row_length calcRdm data events centers neighbors hcalc⟩

/-- Evaluation of the generator on a 1x1x1 all-ones mask: the single voxel is
kept whenever the threshold is at most 1 (also for out-of-range thresholds
below 0). -/
lemma gvs_ones111 (t : ℚ) (ht : t ≤ 1) :
    get_volume_searchlight (onesMask (1, 1, 1)) 1 t = Except.ok ([0], [[0]]) := by
  have hgc : goodCenters (onesMask (1, 1, 1)) 1 t = [(0, 0, 0)] := by
    rw [goodCenters_onesMask (1, 1, 1) 1 t (by norm_num) ht]
    decide
  have hnb : _get_searchlight_neighbors (onesMask (1, 1, 1)) (0, 0, 0) 1 =
      [(0, 0, 0)] :=
    neighbors_radius_one _ _ (by decide)
  unfold get_volume_searchlight goodNeighbors
  rw [hgc, if_neg (by simp)]
  simp only [List.map_cons, List.map_nil, hnb]
  rfl

theorem C3_witness :
    (get_searchlight_RDMs (fun _ => [(37 : ℚ)]) [] [0, 1] [0] [[0]]).length =
        ([0] : List ℕ).length ∧
      ([0] : List ℕ).length = ([[0]] : List (List ℕ)).length ∧
      (∀ i, i < ([0] : List ℕ).length →
        (get_searchlight_RDMs (fun _ => [(37 : ℚ)]) [] [0, 1] [0] [[0]])[i]? =
          some ((fun _ => [(37 : ℚ)]) (localizedDataset [] [0, 1] i
            (([[0]] : List (List ℕ)).getD i [])))) ∧
      ∀ row ∈ get_searchlight_RDMs (fun _ => [(37 : ℚ)]) [] [0, 1] [0] [[0]],
        row.length = nPairsOf [0, 1] :=
  C3_rdm_matrix_shape (onesMask (1, 1, 1)) 1 1 [0] [[0]]
    (fun _ => [(37 : ℚ)]) [] [0, 1] (gvs_ones111 1 le_rfl) (fun _ => rfl)

/-- C5: at the failing input — an all-zero mask, hence zero retained
centers — get_volume_searchlight does not return empty collections: the
empty center array reaches np.ravel_multi_index, which raises ValueError
(shape (0,) supplies zero index arrays for three dims). The downstream
calculator, by contrast, does return a matrix with zero rows on empty center
input without error. -/
theorem C5_zero_centers_behaviour :
    get_volume_searchlight ⟨(1, 1, 1), fun _ => 0⟩ 1 1 =
        Except.error ravelErrorMsg ∧
      ∀ (calcRdm : SLDataset → List ℚ) (data : List (List ℚ))
        (events : List ℕ),
        get_searchlight_RDMs calcRdm data events [] [] = [] := by
  constructor
  · have hgc : goodCenters ⟨(1, 1, 1), fun _ => 0⟩ 1 1 = [] := by
      unfold goodCenters nonzeroCoords
      simp
    unfold get_volume_searchlight
    rw [hgc]
    rfl
  · intro calcRdm data events
    have h := get_searchlight_RDMs_length calcRdm data events [] []
    exact List.length_eq_zero.mp (by simpa using h)

lemma neighbors_nonpos_radius (mask : Mask) (c : ℕ × ℕ × ℕ) {r : ℚ}
    (hr : r ≤ 0) : _get_searchlight_neighbors mask c r = [] := by
  rw [List.eq_nil_iff_forall_not_mem]
  intro p hp
  unfold _get_searchlight_neighbors at hp
  have h1 := (List.mem_filter.mp hp).1
  have h2 := (mem_gridPoints.mp h1).1
  have h3 := (mem_axisCandidates.mp h2).2
  have h4 := abs_nonneg ((p.1 : ℚ) - (c.1 : ℚ))
  linarith

lemma gvs_nonpos_radius_error (mask : Mask) (t : ℚ) {r : ℚ} (hr : r ≤ 0) :
    get_volume_searchlight mask r t = Except.error ravelErrorMsg := by
  have hgc : goodCenters mask r t = [] := by
    unfold goodCenters
    rw [List.filter_eq_nil_iff]
    intro c _
    rw [neighbors_nonpos_radius mask c hr]
    simp [retainQ, sphereMean]
  unfold get_volume_searchlight
  rw [hgc]
  rfl

/-- C6 counterexample: with threshold -1, far outside [0,1], the pipeline
does not fail at entry with a parameter-range error: it runs the scan and
returns centers normally. -/
theorem C6_counterexample :
    get_volume_searchlight (onesMask (1, 1, 1)) 1 (-1) =
      Except.ok ([0], [[0]]) :=
  gvs_ones111 (-1) (by norm_num)

/-- C6 (amended): the code performs no parameter-range validation at entry.
A threshold outside [0,1] is accepted (below 0 it retains every candidate
and the call returns successfully); a radius at or below 0 is not rejected
either — every neighborhood comes back empty, its NaN coverage mean compares
false, no center is retained, and the failure that eventually surfaces is
the downstream empty-ravel ValueError, not a parameter-range check. -/
theorem C6_no_parameter_validation :
    get_volume_searchlight (onesMask (1, 1, 1)) 1 (-1) =
        Except.ok ([0], [[0]]) ∧
      ∀ (mask : Mask) (t r : ℚ), r ≤ 0 →
        (∀ c, _get_searchlight_neighbors mask c r = []) ∧
        get_volume_searchlight mask r t = Except.error ravelErrorMsg :=
  ⟨gvs_ones111 (-1) (by norm_num),
    fun mask t r hr =>
      ⟨fun c => neighbors_nonpos_radius mask c hr,
        gvs_nonpos_radius_error mask t hr⟩⟩

theorem C6_witness :
    _get_searchlight_neighbors (onesMask (2, 2, 2)) (0, 0, 0) (-1) = [] ∧
      get_volume_searchlight (onesMask (2, 2, 2)) (-1) 1 =
        Except.error ravelErrorMsg :=
  ⟨(C6_no_parameter_validation.2 (onesMask (2, 2, 2)) 1 (-1)
      (by norm_num)).1 (0, 0, 0),
    (C6_no_parameter_validation.2 (onesMask (2, 2, 2)) 1 (-1)
      (by norm_num)).2⟩

lemma getD_map_eq {ρ σ : Type} (f : ρ → σ) (l : List ρ) (i : ℕ) (d : ρ) :
    (l.map f).getD i (f d) = f (l.getD i d) := by
  rw [List.getD_eq_getElem?_getD, List.getD_eq_getElem?_getD,
    List.getElem?_map]
  cases l[i]? with
  | none => rfl
  | some x => rfl

/-- C7: the searchlight model evaluator returns one result per input RDM, in
input order: element i of the output is eval_function(models, input[i]), and
evaluating any reindexing of the input yields exactly the same reindexing of
the original outputs (order preservation regardless of worker scheduling:
joblib.Parallel collects results in dispatch order). -/
theorem C7_results_in_input_order {μ ρ σ : Type} (models : μ)
    (eval_function : μ → ρ → σ) (sl_RDM : List ρ) (idx : List ℕ) (d : ρ) :
    (evaluate_models_searchlight sl_RDM models eval_function).length =
        sl_RDM.length ∧
      (∀ i, i < sl_RDM.length →
        (evaluate_models_searchlight sl_RDM models eval_function)[i]? =
          (sl_RDM[i]?).map (eval_function models)) ∧
      evaluate_models_searchlight (idx.map (fun i => sl_RDM.getD i d)) models
          eval_function =
        idx.map (fun i =>
          (evaluate_models_searchlight sl_RDM models eval_function).getD i
            (eval_function models d)) := by
  refine ⟨by simp [evaluate_models_searchlight], ?_, ?_⟩
  · intro i hi
    simp [evaluate_models_searchlight, List.getElem?_map]
  · unfold evaluate_models_searchlight
    rw [List.map_map]
    apply List.map_congr_left
    intro i hi
    simp only [Function.comp_apply]
    exact (getD_map_eq (fun x => eval_function models x) sl_RDM i d).symm

theorem C7_witness :
    (evaluate_models_searchlight [5, 7] 3 (fun m x => m + x)).length =
        ([5, 7] : List ℕ).length ∧
      (∀ i, i < ([5, 7] : List ℕ).length →
        (evaluate_models_searchlight [5, 7] 3 (fun m x => m + x))[i]? =
          (([5, 7] : List ℕ)[i]?).map ((fun m x => m + x) 3)) ∧
      evaluate_models_searchlight
          (([1, 0] : List ℕ).map (fun i => ([5, 7] : List ℕ).getD i 9)) 3
          (fun m x => m + x) =
        ([1, 0] : List ℕ).map (fun i =>
          (evaluate_models_searchlight [5, 7] 3 (fun m x => m + x)).getD i
            ((fun m x => m + x) 3 9)) :=
  C7_results_in_input_order 3 (fun m x => m + x) [5, 7] [1, 0] 9

lemma maskC10_nonzero : nonzeroCoords maskC10 = [(0, 0, 0), (0, 0, 1)] := by
  unfold nonzeroCoords
  rw [show allCoords maskC10.shape = [(0, 0, 0), (0, 0, 1), (0, 0, 2)]
    from rfl]
  norm_num [maskC10, List.filter_cons]

lemma axisC10_x : axisCandidates 1 0 (3 / 2) = [0] := by
  unfold axisCandidates
  rw [show List.range 1 = [0] from rfl]
  norm_num [List.filter_cons]

lemma axisC10_z0 : axisCandidates 3 0 (3 / 2) = [0, 1] := by
  unfold axisCandidates
  rw [show List.range 3 = [0, 1, 2] from rfl]
  norm_num [List.filter_cons]

lemma axisC10_z1 : axisCandidates 3 1 (3 / 2) = [0, 1, 2] := by
  unfold axisCandidates
  rw [show List.range 3 = [0, 1, 2] from rfl]
  norm_num [List.filter_cons]

lemma nbC10_0 :
    _get_searchlight_neighbors maskC10 (0, 0, 0) (3 / 2) =
      [(0, 0, 0), (0, 0, 1)] := by
  unfold _get_searchlight_neighbors
  rw [show maskC10.shape = (1, 1, 3) from rfl]
  simp only
  rw [axisC10_x, axisC10_z0]
  norm_num [gridPoints, sqDist, List.filter_cons]

lemma nbC10_1 :
    _get_searchlight_neighbors maskC10 (0, 0, 1) (3 / 2) =
      [(0, 0, 0), (0, 0, 1), (0, 0, 2)] := by
  unfold _get_searchlight_neighbors
  rw [show maskC10.shape = (1, 1, 3) from rfl]
  simp only
  rw [axisC10_x, axisC10_z1]
  norm_num [gridPoints, sqDist, List.filter_cons]

lemma retainC10_0 : retainQ maskC10 (1 / 2) [(0, 0, 0), (0, 0, 1)] = true := by
  norm_num [retainQ, sphereMean, maskC10]

lemma retainC10_1 :
    retainQ maskC10 (1 / 2) [(0, 0, 0), (0, 0, 1), (0, 0, 2)] = true := by
  norm_num [retainQ, sphereMean, maskC10]

lemma gvsC10 :
    get_volume_searchlight maskC10 (3 / 2) (1 / 2) =
      Except.ok ([0, 1], [[0, 1], [0, 1, 2]]) := by
  have hgc : goodCenters maskC10 (3 / 2) (1 / 2) = [(0, 0, 0), (0, 0, 1)] := by
    unfold goodCenters
    rw [maskC10_nonzero]
    simp only [List.filter_cons, List.filter_nil, nbC10_0, nbC10_1,
      retainC10_0, retainC10_1]
    rfl
  unfold get_volume_searchlight goodNeighbors
  rw [hgc, if_neg (by simp)]
  simp only [List.map_cons, List.map_nil, nbC10_0, nbC10_1]
  rfl

/-- C10: the neighborhood computation reads only the mask's shape, never its
values — two masks of equal shape give identical neighbor lists for every
center and radius. Consequently a retained center's neighbor set can contain
zero-valued voxels: in the 1x1x3 mask with values 1,1,0 at radius 1.5 and
threshold 0.5, center (0,0,1) (raveled index 1) is retained with the
zero-valued voxel (0,0,2) (raveled channel 2) in its neighbor set, and that
channel is part of the localized dataset handed to the RDM calculator. -/
theorem C10_neighbors_ignore_mask_values :
    (∀ (m1 m2 : Mask) (c : ℕ × ℕ × ℕ) (r : ℚ), m1.shape = m2.shape →
      _get_searchlight_neighbors m1 c r = _get_searchlight_neighbors m2 c r) ∧
      get_volume_searchlight maskC10 (3 / 2) (1 / 2) =
        Except.ok ([0, 1], [[0, 1], [0, 1, 2]]) ∧
      maskC10.val (0, 0, 2) = 0 ∧
      ravelIndex maskC10.shape (0, 0, 2) = 2 ∧
      ∀ (data : List (List ℚ)) (events : List ℕ),
        2 ∈ (localizedDataset data events 1 [0, 1, 2]).voxels := by
  refine ⟨?_, gvsC10, by norm_num [maskC10], rfl, ?_⟩
  · intro m1 m2 c r h
    unfold _get_searchlight_neighbors
    rw [h]
  · intro data events
    simp [localizedDataset]

theorem C10_witness :
    _get_searchlight_neighbors ⟨(2, 2, 2), fun _ => 0⟩ (1, 1, 1) 1 =
      _get_searchlight_neighbors ⟨(2, 2, 2), fun _ => 5⟩ (1, 1, 1) 1 :=
  C10_neighbors_ignore_mask_values.1 ⟨(2, 2, 2), fun _ => 0⟩
    ⟨(2, 2, 2), fun _ => 5⟩ (1, 1, 1) 1 rfl
